import Mathlib

/-!
Verification of the conversation-state management, message navigation,
input control and message formatting of the audible-dialogue chat UI.

The definitions below are shallow embeddings of the TypeScript source:
* `src/components/AIAssistant.tsx` — conversation store and orchestrator
  (`handleSendMessage`, `updateConversationMessages`,
  `updateConversationMetadata`, `generateTitle`, `renameConversation`,
  `deleteConversation`, `pinConversation`);
* the navigation-mode `ChatWindow` — `navigateToMessage`, the auto-scroll
  effect and `formatMessageContent`;
* `src/components/InputBar.tsx` — `handleSubmit`, `handleKeyDown` and the
  `disabled` guards of the send button and the textarea;
* `src/components/ConversationHistory.tsx` — `handleSaveEdit`.

Timestamps are modelled as naturals (a `now` parameter replaces
`Date.now()` / `new Date()`); JavaScript string `===` is Lean `=` on
`String`; the falsy-empty-string semantics of `expr || null` is modelled
explicitly where the source relies on it (`filtered[0]?.id || null`,
`if (editingId && editTitle.trim())`).
-/

/-! ### JavaScript string primitives

Structurally recursive models of the string methods the source calls
(`trim`, `split`, `join`, `startsWith`, `substring`, `slice`, `length`),
so that every definition evaluates by kernel reduction. -/

/-- The source's `String.prototype.trim()`: strip leading and trailing whitespace. -/
def jsTrim (s : String) : String :=
  ⟨(((s.data.dropWhile Char.isWhitespace).reverse).dropWhile
      Char.isWhitespace).reverse⟩

/-- Splitting on a single-character separator, on character lists:
`"".split(sep)` is `[""]`, separators delimit (possibly empty) fields. -/
def splitCharAux (sep : Char) : List Char → List (List Char)
  | [] => [[]]
  | c :: rest =>
    match splitCharAux sep rest with
    | [] => [[]]
    | g :: gs => if c = sep then [] :: g :: gs else (c :: g) :: gs

/-- The source's `String.prototype.split(sep)` for a one-character separator. -/
def jsSplit (sep : Char) (s : String) : List String :=
  (splitCharAux sep s.data).map fun g => ⟨g⟩

/-- The source's `Array.prototype.join(' ')`. -/
def joinSpace : List String → String
  | [] => ""
  | [x] => x
  | x :: xs => x ++ " " ++ joinSpace xs

/-- The source's `String.prototype.startsWith(pre)`. -/
def jsStartsWith (s pre : String) : Bool :=
  pre.data.isPrefixOf s.data

/-- The source's `String.prototype.substring(0, n)`. -/
def jsSubstrTo (n : Nat) (s : String) : String :=
  ⟨s.data.take n⟩

/-- The source's `String.prototype.slice(n)`. -/
def jsSlice (n : Nat) (s : String) : String :=
  ⟨s.data.drop n⟩

/-- The source's `String.prototype.length` (code-unit count; code-point count in this
model, which agrees on the source's ASCII literals). -/
def jsLength (s : String) : Nat :=
  s.data.length

/-- Delivery status of a user message (`'sending' | 'sent' | 'error'`). -/
inductive MsgStatus where
  | sending
  | sent
  | error
deriving DecidableEq, Repr

/-- Message author (`'user' | 'assistant'`). -/
inductive MsgType where
  | user
  | assistant
deriving DecidableEq, Repr

/-- The `Message` interface of `ChatWindow.tsx` (audio fields elided:
no claim mentions them and no modelled operation touches them). -/
structure Message where
  id : String
  type : MsgType
  content : String
  timestamp : Nat
  status : Option MsgStatus := none
deriving DecidableEq, Repr

/-- The `Conversation` interface of `AIAssistant.tsx`. -/
structure Conversation where
  id : String
  title : String
  timestamp : Nat
  isPinned : Bool
  preview : String
  messages : List Message
deriving DecidableEq, Repr

/-- The store state of `AIAssistant`: the `conversations` array and
`activeConversationId` (string or null). -/
structure AppState where
  conversations : List Conversation
  activeConversationId : Option String
deriving DecidableEq, Repr

/-- The source's `updateConversationMessages`: wholesale replacement of the target
conversation's message list; a by-id map, silent no-op on absent id. -/
def updateConversationMessages (conversationId : String)
    (newMessages : List Message) (s : AppState) : AppState :=
  { s with conversations := s.conversations.map fun conv =>
      if conv.id = conversationId then { conv with messages := newMessages }
      else conv }

/-- The source's `generateTitle`: first four space-separated tokens of the message,
with `"..."` appended when the message has more than four tokens. -/
def generateTitle (message : String) : String :=
  let words := (jsSplit ' ' message).take 4
  joinSpace words ++
    (if (jsSplit ' ' message).length > 4 then "..." else "")

/-- The source's `updateConversationMetadata`: refresh preview (first 50 characters,
ellipsis when truncated), refresh timestamp, and derive a title from the
last message when the title is still the sentinel `"New Conversation"`. -/
def updateConversationMetadata (conversationId : String)
    (lastMessage : String) (now : Nat) (s : AppState) : AppState :=
  { s with conversations := s.conversations.map fun conv =>
      if conv.id = conversationId then
        { conv with
          title := if conv.title = "New Conversation" then generateTitle lastMessage
                   else conv.title,
          preview := jsSubstrTo 50 lastMessage ++
            (if jsLength lastMessage > 50 then "..." else ""),
          timestamp := now }
      else conv }

/-- The source's `renameConversation`: set the title of the conversation with the
given id (no guard in the store itself; the guard lives in
`ConversationHistory.handleSaveEdit`). -/
def renameConversation (id newTitle : String) (s : AppState) : AppState :=
  { s with conversations := s.conversations.map fun conv =>
      if conv.id = id then { conv with title := newTitle } else conv }

/-- The source's `pinConversation`: toggle the pinned flag of the conversation with
the given id. -/
def pinConversation (id : String) (s : AppState) : AppState :=
  { s with conversations := s.conversations.map fun conv =>
      if conv.id = id then { conv with isPinned := !conv.isPinned } else conv }

/-- JavaScript `filtered[0]?.id || null`: the id of the first remaining
conversation, except that a falsy (empty-string) id also yields null. -/
def headIdOrNull : List Conversation → Option String
  | [] => none
  | c :: _ => if c.id = "" then none else some c.id

/-- The source's `deleteConversation`: remove the conversation with the given id;
when the deleted conversation was the active one, the active id becomes
`filtered[0]?.id || null`. -/
def deleteConversation (id : String) (s : AppState) : AppState :=
  let filtered := s.conversations.filter fun conv => conv.id ≠ id
  { conversations := filtered,
    activeConversationId :=
      if some id = s.activeConversationId then headIdOrNull filtered
      else s.activeConversationId }

/-- The source's `const activeConversation = conversations.find(c => c.id === activeConversationId)`. -/
def findConv (s : AppState) (cid : String) : Option Conversation :=
  s.conversations.find? fun c => c.id = cid

/-- The source's `const messages = activeConversation?.messages || []`. -/
def activeMessages (s : AppState) : List Message :=
  match s.activeConversationId with
  | none => []
  | some cid => ((findConv s cid).map Conversation.messages).getD []

/-- The optimistic user message built by `handleSendMessage`:
trimmed content, status `sending`, id `user-${Date.now()}`. -/
def mkUserMessage (content : String) (now : Nat) : Message :=
  { id := "user-" ++ toString now, type := .user, content := jsTrim content,
    timestamp := now, status := some .sending }

/-- The assistant message built from a successful AI response. -/
def mkAssistantMessage (aiResponse : String) (now : Nat) : Message :=
  { id := "assistant-" ++ toString now, type := .assistant,
    content := aiResponse, timestamp := now, status := none }

/-- The delayed `setTimeout` write of `handleSendMessage`: re-persist the
captured message list with the user message flipped to `sent`. -/
def timeoutWrite (cid : String) (base : List Message) (userMsg : Message)
    (s : AppState) : AppState :=
  updateConversationMessages cid (base ++ [{ userMsg with status := some .sent }]) s

/-- The success-path write of `handleSendMessage`: persist user (`sent`)
plus assistant message, then update the conversation metadata from the
original (untrimmed) text. -/
def successWrite (cid : String) (base : List Message) (userMsg : Message)
    (content aiResponse : String) (now : Nat) (s : AppState) : AppState :=
  updateConversationMetadata cid content now
    (updateConversationMessages cid
      (base ++ [{ userMsg with status := some .sent }, mkAssistantMessage aiResponse now]) s)

/-- The failure-path write of `handleSendMessage`: persist the user
message with status `error`. -/
def errorWrite (cid : String) (base : List Message) (userMsg : Message)
    (s : AppState) : AppState :=
  updateConversationMessages cid (base ++ [{ userMsg with status := some .error }]) s

/-- A complete `handleSendMessage` round trip. `outcome` is the result of
the external call (`some response` on success, `none` on failure).
`timeoutLast = false` is the ordinary schedule: the 100 ms status flip
lands before the network result; `timeoutLast = true` is the fast-response
interleaving where the delayed flip lands after the result write.
Guards, captured `activeConversationId` and captured `messages` follow the
source: no-op when there is no active conversation or the text is blank. -/
def sendRoundTrip (s : AppState) (content : String) (now : Nat)
    (outcome : Option String) (timeoutLast : Bool) : AppState :=
  match s.activeConversationId with
  | none => s
  | some cid =>
    if jsTrim content = "" then s
    else
      let base := activeMessages s
      let userMsg := mkUserMessage content now
      let s1 := updateConversationMessages cid (base ++ [userMsg]) s
      let tW := timeoutWrite cid base userMsg
      let rW := fun st => match outcome with
        | some resp => successWrite cid base userMsg content resp now st
        | none => errorWrite cid base userMsg st
      if timeoutLast then tW (rW s1) else rW (tW s1)

/-- The status the round trip leaves on the persisted user message:
looked up by message id in the active conversation's final message list. -/
def persistedUserStatus (s : AppState) (content : String) (now : Nat)
    (outcome : Option String) (timeoutLast : Bool) : Option (Option MsgStatus) :=
  let s' := sendRoundTrip s content now outcome timeoutLast
  match s'.activeConversationId with
  | none => none
  | some cid =>
    ((findConv s' cid).bind fun conv =>
      conv.messages.find? fun m => m.id = (mkUserMessage content now).id).map
      Message.status

/-! ## Message thread renderer (`ChatWindow` with navigation mode) -/

/-- Navigation direction (`'up' | 'down'`). -/
inductive NavDir where
  | up
  | down
deriving DecidableEq, Repr

/-- The navigation state of the thread view: `currentMessageIndex`
(number or null, modelled as `Option Int` so that `Math.max`/`Math.min`
clamping is literal) and the `isNavigationMode` flag. -/
structure NavState where
  currentMessageIndex : Option Int
  isNavigationMode : Bool
deriving DecidableEq, Repr

/-- The initial render state: no cursor, navigation mode off. -/
def initialNavState : NavState := { currentMessageIndex := none, isNavigationMode := false }

/-- The source's `navigateToMessage` over a message list of length `n`: no-op on an
empty list; a null cursor starts navigation at the last message; a
non-null cursor steps with floor 0 (up) or ceiling `n - 1` (down). -/
def navigateToMessage (n : Nat) (direction : NavDir) (s : NavState) : NavState :=
  if n = 0 then s
  else
    match s.currentMessageIndex with
    | none => { currentMessageIndex := some ((n : Int) - 1), isNavigationMode := true }
    | some i =>
      let newIndex : Int :=
        match direction with
        | .up => max 0 (i - 1)
        | .down => min ((n : Int) - 1) (i + 1)
      { s with currentMessageIndex := some newIndex }

/-- The source's `exitNavigationMode`: clear the cursor and leave navigation mode. -/
def exitNavigationMode (_s : NavState) : NavState :=
  { currentMessageIndex := none, isNavigationMode := false }

/-- Iterated navigation steps. -/
def navSteps (n : Nat) (dirs : List NavDir) (s : NavState) : NavState :=
  dirs.foldl (fun st d => navigateToMessage n d st) s

/-- Scroll actions a `ChatWindow` effect can request. -/
inductive ScrollAction where
  | toBottom
  | toMessage (messageId : String)
deriving DecidableEq, Repr

/-- The render-relevant state of `ChatWindow`. -/
structure ChatState where
  messages : List Message
  isTyping : Bool
  nav : NavState
deriving DecidableEq, Repr

/-- The auto-scroll effect (deps `[messages, isTyping, isNavigationMode]`):
scrolls the bottom anchor into view unless navigation mode is on. -/
def autoScrollEffect (s : ChatState) : List ScrollAction :=
  if !s.nav.isNavigationMode then [.toBottom] else []

/-- The navigation-scroll effect (deps `[currentMessageIndex,
isNavigationMode, messages]`): in navigation mode with a cursor that
resolves to a message, scroll that message into view. -/
def navScrollEffect (s : ChatState) : List ScrollAction :=
  if s.nav.isNavigationMode then
    match s.nav.currentMessageIndex with
    | some i =>
      match s.messages.get? i.toNat with
      | some m => if 0 ≤ i then [.toMessage m.id] else []
      | none => []
    | none => []
  else []

/-- All scroll actions the two `ChatWindow` effects emit on a render. -/
def chatEffects (s : ChatState) : List ScrollAction :=
  autoScrollEffect s ++ navScrollEffect s

/-! ## Message formatter (`formatMessageContent`) -/

/-- A render segment produced by `formatMessageContent` for one line:
a preformatted code block, a bulleted item, or a paragraph whose inline
`**bold**` spans have been rewritten to `<strong>` HTML. -/
inductive Segment where
  | pre (code : String)
  | bullet (text : String)
  | para (html : String)
deriving DecidableEq, Repr

/-- Split a character list at the first occurrence of `**`, returning
the prefix and the suffix after the two stars. -/
def splitAtStars : List Char → Option (List Char × List Char)
  | [] => none
  | '*' :: '*' :: rest => some ([], rest)
  | c :: rest =>
    match splitAtStars rest with
    | some (a, b) => some (c :: a, b)
    | none => none

/-- One pass of the global lazy regex replace
`line.replace(/\*\*(.*?)\*\*/g, '<strong>$1</strong>')`: repeatedly find
the earliest `**`, then the earliest closing `**` after it, rewrite the
span and continue after the closer; a `**` with no closer stays literal.
`fuel` only bounds the recursion; `line.length` is always enough, since
every rewritten span consumes at least four characters. -/
def boldAux : Nat → List Char → List Char
  | 0, cs => cs
  | fuel + 1, cs =>
    match splitAtStars cs with
    | none => cs
    | some (a, rest) =>
      match splitAtStars rest with
      | none => cs
      | some (b, rest2) =>
        a ++ ("<strong>".data ++ b ++ "</strong>".data) ++ boldAux fuel rest2

/-- The source's `const boldFormatted = line.replace(/\*\*(.*?)\*\*/g, '<strong>$1</strong>')`. -/
def boldReplace (line : String) : String :=
  ⟨boldAux line.length line.data⟩

/-- The source's `line.replace(/^[•\-]\s*/, '')`: strip one leading bullet marker and
the whitespace after it; a line not starting with a marker is unchanged. -/
def stripBulletMarker (line : String) : String :=
  match line.data with
  | c :: rest =>
    if c = '•' ∨ c = '-' then ⟨rest.dropWhile Char.isWhitespace⟩ else line
  | [] => line

/-- The source's `formatMessageContent` on a single line, in source order: a line
starting with three backticks becomes a preformatted block holding
`line.slice(3)`; a line whose trim starts with `•` or `-` becomes a
bulleted item with the marker stripped; anything else becomes a
paragraph with `**bold**` spans rewritten to `<strong>` HTML. -/
def formatLine (line : String) : Segment :=
  if jsStartsWith line "```" then .pre (jsSlice 3 line)
  else if jsStartsWith (jsTrim line) "•" ∨ jsStartsWith (jsTrim line) "-" then
    .bullet (stripBulletMarker line)
  else .para (boldReplace line)

/-- The source's `formatMessageContent`: split the content on newlines and format each
line independently. -/
def formatMessageContent (content : String) : List Segment :=
  (jsSplit '\n' content).map formatLine

/-! ## Input controller (`InputBar`) -/

/-- The `InputBar` state: the draft `message`, the `isLoading` prop and
the `isListening` voice-capture flag. -/
structure InputState where
  message : String
  isLoading : Bool
  isListening : Bool
deriving DecidableEq, Repr

/-- The source's `handleSubmit`: when the trimmed draft is non-empty and no request is
in flight, emit the trimmed draft and clear the draft; otherwise nothing. -/
def handleSubmit (s : InputState) : InputState × Option String :=
  if jsTrim s.message ≠ "" ∧ s.isLoading = false then
    ({ s with message := "" }, some (jsTrim s.message))
  else (s, none)

/-- The send button's `disabled` prop:
`!message.trim() || isLoading || isListening`. -/
def sendButtonDisabled (s : InputState) : Bool :=
  jsTrim s.message = "" || s.isLoading || s.isListening

/-- The textarea's `disabled` prop: `isLoading || isListening`. -/
def textareaDisabled (s : InputState) : Bool :=
  s.isLoading || s.isListening

/-- A click on the send button: the browser delivers no click to a
disabled button, so the submit handler runs only when the button is
enabled. -/
def clickSend (s : InputState) : InputState × Option String :=
  if sendButtonDisabled s then (s, none) else handleSubmit s

/-- The source's `handleKeyDown` on the textarea: a disabled textarea receives no key
events; plain Enter (without Shift) submits, anything else is a no-op. -/
def pressKey (key : String) (shiftKey : Bool) (s : InputState) :
    InputState × Option String :=
  if textareaDisabled s then (s, none)
  else if key = "Enter" ∧ shiftKey = false then handleSubmit s
  else (s, none)

/-! ## Conversation browser rename flow (`handleSaveEdit`) -/

/-- The source's `ConversationHistory.handleSaveEdit`: commit the in-place edit only
when `editingId` and the trimmed `editTitle` are both truthy (non-null
and non-empty strings); the rename payload is the trimmed title. -/
def handleSaveEdit (editingId : Option String) (editTitle : String)
    (s : AppState) : AppState :=
  match editingId with
  | some i =>
    if i ≠ "" ∧ jsTrim editTitle ≠ "" then renameConversation i (jsTrim editTitle) s
    else s
  | none => s

/-! ## Operation sequences over the store (pin / unpin / delete / rename) -/

/-- One store operation of the sequences claim: pin and unpin are the
same toggle in the source. -/
inductive StoreOp where
  | pin (id : String)
  | delete (id : String)
  | rename (id : String) (newTitle : String)
deriving DecidableEq, Repr

/-- Apply one store operation. -/
def applyOp (s : AppState) : StoreOp → AppState
  | .pin id => pinConversation id s
  | .delete id => deleteConversation id s
  | .rename id t => renameConversation id t s

/-- Apply a sequence of store operations, left to right. -/
def applyOps (ops : List StoreOp) (s : AppState) : AppState :=
  ops.foldl applyOp s

/-- The active-conversation invariant: an active id exists iff the
collection is non-empty, and an existing active id names a conversation
present in the collection. -/
def ActiveInv (s : AppState) : Prop :=
  (s.activeConversationId.isSome ↔ s.conversations ≠ []) ∧
  (match s.activeConversationId with
   | some a => ∃ c ∈ s.conversations, c.id = a
   | none => True)

/-- Every conversation the program ever creates has a non-empty id
(`'default'` or `conv-${Date.now()}` / `user-…`), so reachable stores
satisfy this; it matters because `filtered[0]?.id || null` treats an
empty-string id as falsy. -/
def IdsNonempty (s : AppState) : Prop :=
  ∀ c ∈ s.conversations, c.id ≠ ""

instance (s : AppState) : Decidable (ActiveInv s) := by
  unfold ActiveInv
  cases s.activeConversationId with
  | none => exact instDecidableAnd
  | some a => exact instDecidableAnd

instance (s : AppState) : Decidable (IdsNonempty s) := by
  unfold IdsNonempty
  exact List.decidableBAll _ s.conversations

/-! ## Helper lemmas on the by-id map pattern -/

theorem find?_map_updateById (f : Conversation → Conversation)
    (hf : ∀ c, (f c).id = c.id) (cid : String) (l : List Conversation) :
    ((l.map fun c => if c.id = cid then f c else c).find? fun c => c.id = cid) =
      ((l.find? fun c => c.id = cid).map f) := by
  induction l with
  | nil => rfl
  | cons c t ih =>
    by_cases h : c.id = cid
    · simp [List.find?, h, hf]
    · simp [List.find?, h, ih]

theorem map_updateById_noop (f : Conversation → Conversation) (cid : String)
    (l : List Conversation) (h : ∀ c ∈ l, c.id ≠ cid) :
    (l.map fun c => if c.id = cid then f c else c) = l := by
  induction l with
  | nil => rfl
  | cons c t ih =>
    have hc := h c (by simp)
    simp only [List.map_cons, if_neg hc, List.cons.injEq, true_and]
    exact ih fun x hx => h x (by simp [hx])

theorem mem_map_updateById (f : Conversation → Conversation)
    (hf : ∀ c, (f c).id = c.id) (cid : String) (l : List Conversation)
    (a : String) (h : ∃ c ∈ l, c.id = a) :
    ∃ c ∈ (l.map fun c => if c.id = cid then f c else c), c.id = a := by
  obtain ⟨c, hc, hid⟩ := h
  by_cases hcc : c.id = cid
  · exact ⟨f c, List.mem_map.2 ⟨c, hc, by simp [hcc]⟩, by rw [hf]; exact hid⟩
  · exact ⟨c, List.mem_map.2 ⟨c, hc, by simp [hcc]⟩, hid⟩

/-! ## Claim theorems -/

/-- C10: every by-id store mutation — replacing a conversation's message
list, updating metadata, renaming, toggling pin — leaves every
conversation with a different id unchanged (positionally), and when no
conversation has the given id the whole state is unchanged. -/
theorem C10_byId_mutations_frame (s : AppState) (cid : String)
    (ms : List Message) (t txt : String) (now : Nat) :
    (∀ (j : Nat) (c : Conversation), s.conversations[j]? = some c → c.id ≠ cid →
      (updateConversationMessages cid ms s).conversations[j]? = some c ∧
      (updateConversationMetadata cid txt now s).conversations[j]? = some c ∧
      (renameConversation cid t s).conversations[j]? = some c ∧
      (pinConversation cid s).conversations[j]? = some c) ∧
    ((∀ c ∈ s.conversations, c.id ≠ cid) →
      updateConversationMessages cid ms s = s ∧
      updateConversationMetadata cid txt now s = s ∧
      renameConversation cid t s = s ∧
      pinConversation cid s = s) := by
  constructor
  · intro j c hj hne
    refine ⟨?_, ?_, ?_, ?_⟩ <;>
      simp [updateConversationMessages, updateConversationMetadata,
        renameConversation, pinConversation, List.getElem?_map, hj, hne]
  · intro h
    refine ⟨?_, ?_, ?_, ?_⟩ <;>
      simp only [updateConversationMessages, updateConversationMetadata,
        renameConversation, pinConversation] <;>
      rw [map_updateById_noop _ _ _ h]

/-- Witness for C10 at a concrete store and an absent id. -/
theorem C10_byId_mutations_frame_witness :
    updateConversationMessages "b" []
        ⟨[⟨"a", "T", 0, false, "p", []⟩], some "a"⟩ =
      ⟨[⟨"a", "T", 0, false, "p", []⟩], some "a"⟩ ∧
    pinConversation "b" ⟨[⟨"a", "T", 0, false, "p", []⟩], some "a"⟩ =
      ⟨[⟨"a", "T", 0, false, "p", []⟩], some "a"⟩ := by
  have h := (C10_byId_mutations_frame
    ⟨[⟨"a", "T", 0, false, "p", []⟩], some "a"⟩ "b" [] "t" "x" 0).2
    (by decide)
  exact ⟨h.1, h.2.2.2⟩

/-- C9: committing a rename through `handleSaveEdit` with a non-blank
title stores exactly the trimmed title (in particular never the empty
string), and an empty-trim rename attempt leaves the store untouched. -/
theorem C9_rename_roundtrip (s : AppState) (i title : String)
    (c : Conversation) (hi : i ≠ "") (hc : findConv s i = some c) :
    (jsTrim title ≠ "" →
      (findConv (handleSaveEdit (some i) title s) i).map Conversation.title
        = some (jsTrim title)) ∧
    (jsTrim title = "" → handleSaveEdit (some i) title s = s) := by
  constructor
  · intro ht
    simp only [handleSaveEdit, if_pos (And.intro hi ht)]
    have := find?_map_updateById (fun c => { c with title := jsTrim title })
      (fun c => rfl) i s.conversations
    simp only [findConv, renameConversation] at hc ⊢
    rw [this, hc]
    rfl
  · intro ht
    simp [handleSaveEdit, ht]

/-- Witness for C9: renaming conversation `a` to `"  Budget  "` reads
back as `"Budget"`. -/
theorem C9_rename_roundtrip_witness :
    (findConv (handleSaveEdit (some "a") "  Budget  "
        ⟨[⟨"a", "T", 0, false, "p", []⟩], some "a"⟩) "a").map
      Conversation.title = some "Budget" := by
  have h := (C9_rename_roundtrip ⟨[⟨"a", "T", 0, false, "p", []⟩], some "a"⟩
    "a" "  Budget  " ⟨"a", "T", 0, false, "p", []⟩ (by decide) rfl).1 (by decide)
  have e : jsTrim "  Budget  " = "Budget" := by decide
  rw [e] at h
  exact h

/-- The conversation list after `deleteConversation`. -/
theorem delete_conversations_eq (id : String) (s : AppState) :
    (deleteConversation id s).conversations =
      s.conversations.filter fun conv => conv.id ≠ id := rfl

/-- The active id after `deleteConversation`. -/
theorem delete_active_eq (id : String) (s : AppState) :
    (deleteConversation id s).activeConversationId =
      if some id = s.activeConversationId then
        headIdOrNull (s.conversations.filter fun conv => conv.id ≠ id)
      else s.activeConversationId := rfl

/-- C4: deleting the active conversation makes the first remaining
conversation (in current order) active, and makes the active id null
when no conversation remains. -/
theorem C4_delete_active_selects_head (s : AppState) (a : String)
    (hact : s.activeConversationId = some a) (hIds : IdsNonempty s) :
    (∀ c, (deleteConversation a s).conversations.head? = some c →
      (deleteConversation a s).activeConversationId = some c.id) ∧
    ((deleteConversation a s).conversations = [] →
      (deleteConversation a s).activeConversationId = none) := by
  constructor
  · intro c hc
    rw [delete_conversations_eq] at hc
    rw [delete_active_eq, hact, if_pos rfl]
    cases hfil : s.conversations.filter (fun conv => conv.id ≠ a) with
    | nil => rw [hfil] at hc; simp at hc
    | cons d t =>
      rw [hfil] at hc
      have hdc : d = c := by simpa using hc
      subst hdc
      have hd : d ∈ s.conversations :=
        List.mem_of_mem_filter (hfil ▸ List.mem_cons_self d t)
      have hne : d.id ≠ "" := hIds d hd
      simp [headIdOrNull, hne]
  · intro hnil
    rw [delete_conversations_eq] at hnil
    rw [delete_active_eq, hact, if_pos rfl, hnil]
    rfl

/-- Witness for C4: deleting the active conversation `a` from a
two-conversation store makes `b` active. -/
theorem C4_delete_active_selects_head_witness :
    (deleteConversation "a"
      ⟨[⟨"a", "T", 0, false, "p", []⟩, ⟨"b", "U", 0, false, "q", []⟩],
        some "a"⟩).activeConversationId = some "b" := by
  have h := (C4_delete_active_selects_head
    ⟨[⟨"a", "T", 0, false, "p", []⟩, ⟨"b", "U", 0, false, "q", []⟩], some "a"⟩
    "a" rfl (by decide)).1 ⟨"b", "U", 0, false, "q", []⟩ (by decide)
  exact h

/-- A by-id map mutation that preserves ids preserves the
active-conversation invariant and id non-emptiness. -/
theorem mapOp_preserves (f : Conversation → Conversation)
    (hf : ∀ c, (f c).id = c.id) (cid : String) (s : AppState)
    (hInv : ActiveInv s) (hIds : IdsNonempty s) :
    ActiveInv { s with conversations :=
        s.conversations.map fun c => if c.id = cid then f c else c } ∧
      IdsNonempty { s with conversations :=
        s.conversations.map fun c => if c.id = cid then f c else c } := by
  obtain ⟨h1, h2⟩ := hInv
  refine ⟨⟨?_, ?_⟩, ?_⟩
  · simpa [List.map_eq_nil_iff] using h1
  · cases hA : s.activeConversationId with
    | none => trivial
    | some a =>
      rw [hA] at h2
      exact mem_map_updateById f hf cid s.conversations a h2
  · intro c hc
    obtain ⟨x, hx, hxc⟩ := List.mem_map.1 hc
    subst hxc
    by_cases hcc : x.id = cid
    · rw [if_pos hcc, hf]; exact hIds x hx
    · rw [if_neg hcc]; exact hIds x hx

/-- The source's `deleteConversation` preserves the active-conversation invariant and
id non-emptiness on stores whose ids are non-empty. -/
theorem delete_preserves (id : String) (s : AppState)
    (hInv : ActiveInv s) (hIds : IdsNonempty s) :
    ActiveInv (deleteConversation id s) ∧
      IdsNonempty (deleteConversation id s) := by
  obtain ⟨h1, h2⟩ := hInv
  have hIds' : IdsNonempty (deleteConversation id s) := by
    intro c hc
    rw [delete_conversations_eq] at hc
    exact hIds c (List.mem_of_mem_filter hc)
  refine ⟨⟨?_, ?_⟩, hIds'⟩ <;>
    rw [show (deleteConversation id s).activeConversationId = _ from
      delete_active_eq id s] <;>
    rw [delete_conversations_eq] <;>
    by_cases hid : some id = s.activeConversationId
  · rw [if_pos hid]
    cases hF : s.conversations.filter fun conv => conv.id ≠ id with
    | nil => simp [headIdOrNull]
    | cons d t =>
      have hd : d ∈ s.conversations :=
        List.mem_of_mem_filter (hF ▸ List.mem_cons_self d t)
      simp [headIdOrNull, hIds d hd]
  · rw [if_neg hid]
    cases hA : s.activeConversationId with
    | none =>
      have hnil : s.conversations = [] := by
        rw [hA] at h1
        by_contra hne
        exact absurd (h1.mpr hne) (by simp)
      simp [hnil]
    | some a =>
      rw [hA] at h2 hid
      obtain ⟨c, hc, hcid⟩ := h2
      have hca : c.id ≠ id := fun h => hid (by rw [← h, hcid])
      have hcF : c ∈ s.conversations.filter fun conv => conv.id ≠ id :=
        List.mem_filter.2 ⟨hc, by simpa using hca⟩
      simp only [Option.isSome_some, true_iff]
      exact List.ne_nil_of_mem hcF
  · rw [if_pos hid]
    cases hF : s.conversations.filter fun conv => conv.id ≠ id with
    | nil => trivial
    | cons d t =>
      have hd : d ∈ s.conversations :=
        List.mem_of_mem_filter (hF ▸ List.mem_cons_self d t)
      simp only [headIdOrNull, if_neg (hIds d hd)]
      exact ⟨d, List.mem_cons_self d t, rfl⟩
  · rw [if_neg hid]
    cases hA : s.activeConversationId with
    | none => trivial
    | some a =>
      rw [hA] at h2 hid
      obtain ⟨c, hc, hcid⟩ := h2
      have hca : c.id ≠ id := fun h => hid (by rw [← h, hcid])
      exact ⟨c, List.mem_filter.2 ⟨hc, by simpa using hca⟩, hcid⟩

/-- Each pin / unpin / delete / rename operation preserves the invariant. -/
theorem applyOp_preserves (s : AppState) (op : StoreOp)
    (hInv : ActiveInv s) (hIds : IdsNonempty s) :
    ActiveInv (applyOp s op) ∧ IdsNonempty (applyOp s op) := by
  cases op with
  | pin id =>
    exact mapOp_preserves (fun c => { c with isPinned := !c.isPinned })
      (fun c => rfl) id s hInv hIds
  | delete id => exact delete_preserves id s hInv hIds
  | rename id t =>
    exact mapOp_preserves (fun c => { c with title := t })
      (fun c => rfl) id s hInv hIds

/-- C3: over every sequence of pin/unpin/delete/rename operations, the
active-conversation invariant is preserved: an active id exists iff the
collection is non-empty, and it always names a present conversation
(ids are non-empty in every reachable store, which the hypothesis
`IdsNonempty` records). -/
theorem C3_activeInv_all_sequences (ops : List StoreOp) (s : AppState)
    (hInv : ActiveInv s) (hIds : IdsNonempty s) :
    ActiveInv (applyOps ops s) ∧ IdsNonempty (applyOps ops s) := by
  induction ops generalizing s with
  | nil => exact ⟨hInv, hIds⟩
  | cons op rest ih =>
    have h := applyOp_preserves s op hInv hIds
    exact ih (applyOp s op) h.1 h.2

/-- Witness for C3 on a concrete two-conversation store and a pin,
rename, delete sequence. -/
theorem C3_activeInv_all_sequences_witness :
    ActiveInv (applyOps [.pin "a", .rename "a" "X", .delete "a"]
      ⟨[⟨"a", "T", 0, false, "p", []⟩, ⟨"b", "U", 0, false, "q", []⟩],
        some "a"⟩) :=
  (C3_activeInv_all_sequences [.pin "a", .rename "a" "X", .delete "a"]
    ⟨[⟨"a", "T", 0, false, "p", []⟩, ⟨"b", "U", 0, false, "q", []⟩],
      some "a"⟩ (by decide) (by decide)).1

/-- The source's `findConv` after a message-list replacement on the found id. -/
theorem findConv_update (cid : String) (ms : List Message) (s : AppState)
    (c : Conversation) (h : findConv s cid = some c) :
    findConv (updateConversationMessages cid ms s) cid =
      some { c with messages := ms } := by
  have := find?_map_updateById (fun v => { v with messages := ms })
    (fun v => rfl) cid s.conversations
  simp only [findConv, updateConversationMessages] at h ⊢
  rw [this, h]
  rfl

/-- The source's `findConv` after a metadata refresh on the found id. -/
theorem findConv_metadata (cid txt : String) (now : Nat) (s : AppState)
    (c : Conversation) (h : findConv s cid = some c) :
    findConv (updateConversationMetadata cid txt now s) cid =
      some { c with
        title := if c.title = "New Conversation" then generateTitle txt
                 else c.title,
        preview := jsSubstrTo 50 txt ++
          (if jsLength txt > 50 then "..." else ""),
        timestamp := now } := by
  have := find?_map_updateById (fun v =>
      { v with
        title := if v.title = "New Conversation" then generateTitle txt
                 else v.title,
        preview := jsSubstrTo 50 txt ++
          (if jsLength txt > 50 then "..." else ""),
        timestamp := now })
    (fun v => rfl) cid s.conversations
  simp only [findConv, updateConversationMetadata] at h ⊢
  rw [this, h]
  rfl

/-- The source's `activeMessages` of a state whose active conversation is found. -/
theorem activeMessages_eq (s : AppState) (cid : String) (conv : Conversation)
    (hact : s.activeConversationId = some cid)
    (hfind : findConv s cid = some conv) :
    activeMessages s = conv.messages := by
  simp [activeMessages, hact, hfind]

/-- C1 counterexample: when the external call succeeds faster than the
100 ms delayed status flip, the stale `setTimeout` write lands last and
replaces the conversation's messages with the captured list plus only
the `sent` user message, wiping the assistant message: the successful
round trip appends exactly one message, not two. -/
theorem C1_counterexample_fast_response_drops_assistant :
    (findConv (sendRoundTrip
        ⟨[⟨"default", "New Conversation", 0, false, "w", []⟩], some "default"⟩
        "Hello world this is a test" 5 (some "Hi") true) "default").map
      (fun c => c.messages.length) = some 1 ∧ (1 : Nat) ≠ 2 := by
  constructor
  · decide
  · decide

/-- C1 (amended): on a successful round trip over non-blank text with an
active conversation, `handleSendMessage` appends exactly two messages —
the trimmed user message with status `sent`, then the assistant message —
when the delayed status flip lands before the result write (the ordinary
schedule); in the fast-response interleaving where the stale delayed
write lands last, only the `sent` user message is appended and the
assistant message is dropped. In both schedules, when the title was
still the default `"New Conversation"`, it is set via `generateTitle`,
which on `"Hello world this is a test"` is `"Hello world this is..."`
(first four words plus an ellipsis since more words remain). -/
theorem C1_sendMessage_success_appends (s : AppState) (cid : String)
    (conv : Conversation) (content resp : String) (now : Nat)
    (timeoutLast : Bool)
    (hact : s.activeConversationId = some cid)
    (hfind : findConv s cid = some conv)
    (htrim : jsTrim content ≠ "") :
    ∃ conv',
      findConv (sendRoundTrip s content now (some resp) timeoutLast) cid
          = some conv' ∧
      conv'.messages = conv.messages ++
        (if timeoutLast then
          [{ mkUserMessage content now with status := some .sent }]
        else
          [{ mkUserMessage content now with status := some .sent },
           mkAssistantMessage resp now]) ∧
      conv'.title = (if conv.title = "New Conversation" then
          generateTitle content else conv.title) ∧
      conv'.id = conv.id ∧
      generateTitle "Hello world this is a test" = "Hello world this is..." := by
  have hbase := activeMessages_eq s cid conv hact hfind
  have h1 := findConv_update cid
    (activeMessages s ++ [mkUserMessage content now]) s conv hfind
  cases timeoutLast with
  | false =>
    have h2 := findConv_update cid
      (activeMessages s ++ [{ mkUserMessage content now with status := some .sent }])
      _ _ h1
    have h3 := findConv_update cid
      (activeMessages s ++ [{ mkUserMessage content now with status := some .sent },
        mkAssistantMessage resp now]) _ _ h2
    have h4 := findConv_metadata cid content now _ _ h3
    have hsend : sendRoundTrip s content now (some resp) false =
        updateConversationMetadata cid content now
          (updateConversationMessages cid
            (activeMessages s ++
              [{ mkUserMessage content now with status := some .sent },
               mkAssistantMessage resp now])
            (updateConversationMessages cid
              (activeMessages s ++
                [{ mkUserMessage content now with status := some .sent }])
              (updateConversationMessages cid
                (activeMessages s ++ [mkUserMessage content now]) s))) := by
      simp only [sendRoundTrip, hact, if_neg htrim]
      rfl
    exact ⟨_, by rw [hsend]; exact h4, by simp [hbase], by simp, by simp,
      by decide⟩
  | true =>
    have h2 := findConv_update cid
      (activeMessages s ++ [{ mkUserMessage content now with status := some .sent },
        mkAssistantMessage resp now]) _ _ h1
    have h3 := findConv_metadata cid content now _ _ h2
    have h4 := findConv_update cid
      (activeMessages s ++ [{ mkUserMessage content now with status := some .sent }])
      _ _ h3
    have hsend : sendRoundTrip s content now (some resp) true =
        updateConversationMessages cid
          (activeMessages s ++
            [{ mkUserMessage content now with status := some .sent }])
          (updateConversationMetadata cid content now
            (updateConversationMessages cid
              (activeMessages s ++
                [{ mkUserMessage content now with status := some .sent },
                 mkAssistantMessage resp now])
              (updateConversationMessages cid
                (activeMessages s ++ [mkUserMessage content now]) s))) := by
      simp only [sendRoundTrip, hact, if_neg htrim]
      rfl
    exact ⟨_, by rw [hsend]; exact h4, by simp [hbase], by simp, by simp,
      by decide⟩

/-- Witness for C1 (amended): under the ordinary schedule, sending the
spec's example message into a fresh default conversation yields title
`"Hello world this is..."` and exactly two messages. -/
theorem C1_sendMessage_success_appends_witness :
    (findConv (sendRoundTrip
        ⟨[⟨"default", "New Conversation", 0, false, "w", []⟩], some "default"⟩
        "Hello world this is a test" 5 (some "Hi") false) "default").map
      (fun c => (c.title, c.messages.length)) =
      some ("Hello world this is...", 2) := by
  obtain ⟨conv', hfound, hmsgs, htitle, hid, hgen⟩ :=
    C1_sendMessage_success_appends
      ⟨[⟨"default", "New Conversation", 0, false, "w", []⟩], some "default"⟩
      "default" ⟨"default", "New Conversation", 0, false, "w", []⟩
      "Hello world this is a test" "Hi" 5 false rfl rfl (by decide)
  rw [hfound]
  simp at hmsgs
  simp [hmsgs, htitle, hgen]

/-- Writes through the store never touch the active id. -/
theorem update_preserves_active (cid : String) (ms : List Message)
    (s : AppState) :
    (updateConversationMessages cid ms s).activeConversationId =
      s.activeConversationId := rfl

/-- Metadata refreshes never touch the active id. -/
theorem metadata_preserves_active (cid txt : String) (now : Nat)
    (s : AppState) :
    (updateConversationMetadata cid txt now s).activeConversationId =
      s.activeConversationId := rfl

/-- Finding a freshly appended message by its id. -/
theorem find?_user_append (base : List Message) (uid : String) (u : Message)
    (rest : List Message) (hu : u.id = uid)
    (hfresh : ∀ m ∈ base, m.id ≠ uid) :
    ((base ++ u :: rest).find? fun m => m.id = uid) = some u := by
  rw [List.find?_append]
  have hnone : base.find? (fun m => decide (m.id = uid)) = none :=
    List.find?_eq_none.2 fun x hx => by simpa using hfresh x hx
  rw [hnone]
  simp [List.find?, hu]

/-- C2 counterexample: on the failure path under the ordinary schedule
(the delayed `sent` flip at 100 ms lands before the error write), the
persisted user message's status is `error`, not `sent` as the claim
states for the failure path. -/
theorem C2_counterexample_failure_not_sent :
    persistedUserStatus
        ⟨[⟨"default", "New Conversation", 0, false, "w", []⟩], some "default"⟩
        "hi" 5 none false = some (some .error) ∧
      some (some MsgStatus.error) ≠ some (some MsgStatus.sent) := by
  constructor
  · decide
  · decide

/-- The source's `sendMessage` never changes which conversation is active. -/
theorem sendRoundTrip_preserves_active (s : AppState) (content : String)
    (now : Nat) (outcome : Option String) (tl : Bool) :
    (sendRoundTrip s content now outcome tl).activeConversationId =
      s.activeConversationId := by
  unfold sendRoundTrip
  cases hA : s.activeConversationId with
  | none => exact hA
  | some cid =>
    by_cases ht : jsTrim content = ""
    · simp only [if_pos ht]
      exact hA
    · simp only [if_neg ht]
      cases outcome <;> cases tl <;> exact hA

/-- Reduce `persistedUserStatus` to a lookup in the final messages of
the active conversation. -/
theorem persistedUserStatus_eq_of (s : AppState) (content : String)
    (now : Nat) (outcome : Option String) (tl : Bool) (cid : String)
    (c : Conversation) (hact : s.activeConversationId = some cid)
    (hf : findConv (sendRoundTrip s content now outcome tl) cid = some c) :
    persistedUserStatus s content now outcome tl =
      (c.messages.find? fun m => m.id = (mkUserMessage content now).id).map
        Message.status := by
  simp only [persistedUserStatus, sendRoundTrip_preserves_active, hact, hf]
  rfl

/-- C2 (amended): once both asynchronous completions of a `sendMessage`
round trip have landed, the persisted user message's status is never
`sending`: it is `sent` on the success path (either ordering, and also
on the failure path when the delayed flip lands after the error write),
and `error` on the failure path under the ordinary schedule where the
error write lands last. -/
theorem C2_status_never_sending (s : AppState) (cid : String)
    (conv : Conversation) (content : String) (now : Nat)
    (outcome : Option String) (timeoutLast : Bool)
    (hact : s.activeConversationId = some cid)
    (hfind : findConv s cid = some conv)
    (htrim : jsTrim content ≠ "")
    (hfresh : ∀ m ∈ conv.messages, m.id ≠ (mkUserMessage content now).id) :
    persistedUserStatus s content now outcome timeoutLast ≠
        some (some .sending) ∧
    (outcome.isSome = true ∨ timeoutLast = true →
      persistedUserStatus s content now outcome timeoutLast =
        some (some .sent)) ∧
    (outcome = none ∧ timeoutLast = false →
      persistedUserStatus s content now outcome timeoutLast =
        some (some .error)) := by
  have hbase := activeMessages_eq s cid conv hact hfind
  have hfreshB : ∀ m ∈ activeMessages s, m.id ≠ (mkUserMessage content now).id := by
    rw [hbase]; exact hfresh
  have h1 := findConv_update cid
    (activeMessages s ++ [mkUserMessage content now]) s conv hfind
  cases timeoutLast with
  | false =>
    cases outcome with
    | none =>
      have h2 := findConv_update cid
        (activeMessages s ++
          [{ mkUserMessage content now with status := some .sent }]) _ _ h1
      have h3 := findConv_update cid
        (activeMessages s ++
          [{ mkUserMessage content now with status := some .error }]) _ _ h2
      have hs' : sendRoundTrip s content now none false =
          updateConversationMessages cid
            (activeMessages s ++
              [{ mkUserMessage content now with status := some .error }])
            (updateConversationMessages cid
              (activeMessages s ++
                [{ mkUserMessage content now with status := some .sent }])
              (updateConversationMessages cid
                (activeMessages s ++ [mkUserMessage content now]) s)) := by
        simp only [sendRoundTrip, hact, if_neg htrim]
        rfl
      have key : persistedUserStatus s content now none false =
          some (some .error) := by
        rw [persistedUserStatus_eq_of s content now none false cid _ hact
          (hs' ▸ h3)]
        show ((activeMessages s ++
            [{ mkUserMessage content now with status := some .error }]).find?
              fun (m : Message) => m.id = (mkUserMessage content now).id).map
            Message.status = some (some MsgStatus.error)
        rw [find?_user_append (activeMessages s) ((mkUserMessage content now).id)
          { mkUserMessage content now with status := some MsgStatus.error }
          [] rfl hfreshB]
        rfl
      refine ⟨by rw [key]; simp, ?_, fun _ => key⟩
      rintro (h | h) <;> simp at h
    | some resp =>
      have h2 := findConv_update cid
        (activeMessages s ++
          [{ mkUserMessage content now with status := some .sent }]) _ _ h1
      have h3 := findConv_update cid
        (activeMessages s ++
          [{ mkUserMessage content now with status := some .sent },
           mkAssistantMessage resp now]) _ _ h2
      have h4 := findConv_metadata cid content now _ _ h3
      have hs' : sendRoundTrip s content now (some resp) false =
          updateConversationMetadata cid content now
            (updateConversationMessages cid
              (activeMessages s ++
                [{ mkUserMessage content now with status := some .sent },
                 mkAssistantMessage resp now])
              (updateConversationMessages cid
                (activeMessages s ++
                  [{ mkUserMessage content now with status := some .sent }])
                (updateConversationMessages cid
                  (activeMessages s ++ [mkUserMessage content now]) s))) := by
        simp only [sendRoundTrip, hact, if_neg htrim]
        rfl
      have key : persistedUserStatus s content now (some resp) false =
          some (some .sent) := by
        rw [persistedUserStatus_eq_of s content now (some resp) false cid _
          hact (hs' ▸ h4)]
        show ((activeMessages s ++
            [{ mkUserMessage content now with status := some .sent },
             mkAssistantMessage resp now]).find?
              fun (m : Message) => m.id = (mkUserMessage content now).id).map
            Message.status = some (some MsgStatus.sent)
        rw [find?_user_append (activeMessages s) ((mkUserMessage content now).id)
          { mkUserMessage content now with status := some MsgStatus.sent }
          [mkAssistantMessage resp now] rfl hfreshB]
        rfl
      exact ⟨by rw [key]; simp, fun _ => key, by rintro ⟨h, _⟩; cases h⟩
  | true =>
    cases outcome with
    | none =>
      have h2 := findConv_update cid
        (activeMessages s ++
          [{ mkUserMessage content now with status := some .error }]) _ _ h1
      have h3 := findConv_update cid
        (activeMessages s ++
          [{ mkUserMessage content now with status := some .sent }]) _ _ h2
      have hs' : sendRoundTrip s content now none true =
          updateConversationMessages cid
            (activeMessages s ++
              [{ mkUserMessage content now with status := some .sent }])
            (updateConversationMessages cid
              (activeMessages s ++
                [{ mkUserMessage content now with status := some .error }])
              (updateConversationMessages cid
                (activeMessages s ++ [mkUserMessage content now]) s)) := by
        simp only [sendRoundTrip, hact, if_neg htrim]
        rfl
      have key : persistedUserStatus s content now none true =
          some (some .sent) := by
        rw [persistedUserStatus_eq_of s content now none true cid _ hact
          (hs' ▸ h3)]
        show ((activeMessages s ++
            [{ mkUserMessage content now with status := some .sent }]).find?
              fun (m : Message) => m.id = (mkUserMessage content now).id).map
            Message.status = some (some MsgStatus.sent)
        rw [find?_user_append (activeMessages s) ((mkUserMessage content now).id)
          { mkUserMessage content now with status := some MsgStatus.sent }
          [] rfl hfreshB]
        rfl
      exact ⟨by rw [key]; simp, fun _ => key, by rintro ⟨_, h⟩; cases h⟩
    | some resp =>
      have h2 := findConv_update cid
        (activeMessages s ++
          [{ mkUserMessage content now with status := some .sent },
           mkAssistantMessage resp now]) _ _ h1
      have h3 := findConv_metadata cid content now _ _ h2
      have h4 := findConv_update cid
        (activeMessages s ++
          [{ mkUserMessage content now with status := some .sent }]) _ _ h3
      have hs' : sendRoundTrip s content now (some resp) true =
          updateConversationMessages cid
            (activeMessages s ++
              [{ mkUserMessage content now with status := some .sent }])
            (updateConversationMetadata cid content now
              (updateConversationMessages cid
                (activeMessages s ++
                  [{ mkUserMessage content now with status := some .sent },
                   mkAssistantMessage resp now])
                (updateConversationMessages cid
                  (activeMessages s ++ [mkUserMessage content now]) s))) := by
        simp only [sendRoundTrip, hact, if_neg htrim]
        rfl
      have key : persistedUserStatus s content now (some resp) true =
          some (some .sent) := by
        rw [persistedUserStatus_eq_of s content now (some resp) true cid _
          hact (hs' ▸ h4)]
        show ((activeMessages s ++
            [{ mkUserMessage content now with status := some .sent }]).find?
              fun (m : Message) => m.id = (mkUserMessage content now).id).map
            Message.status = some (some MsgStatus.sent)
        rw [find?_user_append (activeMessages s) ((mkUserMessage content now).id)
          { mkUserMessage content now with status := some MsgStatus.sent }
          [] rfl hfreshB]
        rfl
      exact ⟨by rw [key]; simp, fun _ => key, by rintro ⟨h, _⟩; cases h⟩

/-- Witness for C2 (amended) on the concrete success path. -/
theorem C2_status_never_sending_witness :
    persistedUserStatus
        ⟨[⟨"default", "New Conversation", 0, false, "w", []⟩], some "default"⟩
        "hi" 5 (some "ok") false = some (some .sent) :=
  (C2_status_never_sending
    ⟨[⟨"default", "New Conversation", 0, false, "w", []⟩], some "default"⟩
    "default" ⟨"default", "New Conversation", 0, false, "w", []⟩
    "hi" 5 (some "ok") false rfl rfl (by decide) (by decide)).2.1
    (Or.inl rfl)

/-- C5 counterexample: with a single message (N = 1), entering Navigate
puts the cursor at 0; stepping up N-1 = 0 times and then down once
leaves the cursor at 0 (the ceiling is N-1 = 0), not at 1 as the claim
states for every N ≥ 1. -/
theorem C5_counterexample_single_message :
    (navSteps 1 (List.replicate (1 - 1) .up ++ [.down])
      (navigateToMessage 1 .up initialNavState)).currentMessageIndex =
        some 0 ∧
    some (0 : Int) ≠ some (1 : Int) := by
  constructor
  · decide
  · decide

/-- Entering navigation via the first `navigateToMessage` call. -/
theorem enterNav_eq (n : Nat) (hn : 1 ≤ n) :
    navigateToMessage n .up initialNavState =
      { currentMessageIndex := some ((n : Int) - 1),
        isNavigationMode := true } := by
  unfold navigateToMessage initialNavState
  rw [if_neg (by omega)]

/-- A navigation step from an in-range cursor stays in range. -/
theorem nav_step_bounds (n : Nat) (hn : 1 ≤ n) (d : NavDir) (s : NavState)
    (i : Int) (hs : s.currentMessageIndex = some i) (h0 : 0 ≤ i)
    (h1 : i ≤ (n : Int) - 1) :
    ∃ j, (navigateToMessage n d s).currentMessageIndex = some j ∧
      0 ≤ j ∧ j ≤ (n : Int) - 1 := by
  unfold navigateToMessage
  rw [if_neg (by omega : ¬ n = 0)]
  rw [hs]
  cases d with
  | up =>
    exact ⟨max 0 (i - 1), rfl, le_max_left 0 _,
      max_le (by omega) (by omega)⟩
  | down =>
    exact ⟨min ((n : Int) - 1) (i + 1), rfl,
      le_min (by omega) (by omega), min_le_left _ _⟩

/-- Every step sequence from an in-range cursor keeps the cursor in
range. -/
theorem nav_steps_bounds (n : Nat) (hn : 1 ≤ n) (dirs : List NavDir)
    (s : NavState) (i : Int) (hs : s.currentMessageIndex = some i)
    (h0 : 0 ≤ i) (h1 : i ≤ (n : Int) - 1) :
    ∃ j, (navSteps n dirs s).currentMessageIndex = some j ∧
      0 ≤ j ∧ j ≤ (n : Int) - 1 := by
  induction dirs generalizing s i with
  | nil => exact ⟨i, hs, h0, h1⟩
  | cons d ds ih =>
    obtain ⟨j, hj, hj0, hj1⟩ := nav_step_bounds n hn d s i hs h0 h1
    exact ih (navigateToMessage n d s) j hj hj0 hj1

/-- Stepping up `k` times from cursor `i ≥ 0` lands on `max 0 (i - k)`. -/
theorem nav_up_replicate (n : Nat) (hn : ¬ n = 0) (k : Nat) (i : Int)
    (h0 : 0 ≤ i) (b : Bool) :
    navSteps n (List.replicate k .up)
        { currentMessageIndex := some i, isNavigationMode := b } =
      { currentMessageIndex := some (max 0 (i - (k : Int))),
        isNavigationMode := b } := by
  induction k generalizing i with
  | zero =>
    simp only [List.replicate, navSteps, List.foldl_nil, Nat.cast_zero,
      Int.sub_zero]
    rw [max_eq_right h0]
  | succ k ih =>
    rw [List.replicate_succ]
    have hstep : navigateToMessage n .up
        { currentMessageIndex := some i, isNavigationMode := b } =
        { currentMessageIndex := some (max 0 (i - 1)),
          isNavigationMode := b } := by
      unfold navigateToMessage
      rw [if_neg hn]
    have : navSteps n (.up :: List.replicate k .up)
        { currentMessageIndex := some i, isNavigationMode := b } =
        navSteps n (List.replicate k .up)
          { currentMessageIndex := some (max 0 (i - 1)),
            isNavigationMode := b } := by
      simp only [navSteps, List.foldl_cons, hstep]
    rw [this, ih (max 0 (i - 1)) (le_max_left 0 _)]
    congr 2
    omega

/-- C5 (amended): over a message list of length N ≥ 1, entering Navigate
sets the cursor to N-1 and turns navigation mode on; the cursor stays in
[0, N-1] under every step sequence; and stepping up N-1 times then down
once returns the cursor to 1 whenever N ≥ 2 (with a single message the
cursor stays at 0, the ceiling N-1). -/
theorem C5_navigation_cursor (n : Nat) (hn : 1 ≤ n) :
    (navigateToMessage n .up initialNavState).currentMessageIndex =
        some ((n : Int) - 1) ∧
    (navigateToMessage n .up initialNavState).isNavigationMode = true ∧
    (∀ dirs : List NavDir, ∃ j,
      (navSteps n dirs
          (navigateToMessage n .up initialNavState)).currentMessageIndex =
        some j ∧ 0 ≤ j ∧ j ≤ (n : Int) - 1) ∧
    (2 ≤ n →
      (navSteps n (List.replicate (n - 1) .up ++ [.down])
          (navigateToMessage n .up initialNavState)).currentMessageIndex =
        some 1) := by
  rw [enterNav_eq n hn]
  refine ⟨rfl, rfl, ?_, ?_⟩
  · intro dirs
    exact nav_steps_bounds n hn dirs _ ((n : Int) - 1) rfl (by omega)
      (by omega)
  · intro h2
    have hups := nav_up_replicate n (by omega) (n - 1) ((n : Int) - 1)
      (by omega) true
    have hzero : max 0 (((n : Int) - 1) - ((n - 1 : Nat) : Int)) = 0 := by
      have : ((n - 1 : Nat) : Int) = (n : Int) - 1 := by omega
      rw [this]
      omega
    rw [hzero] at hups
    have : navSteps n (List.replicate (n - 1) .up ++ [.down])
        { currentMessageIndex := some ((n : Int) - 1),
          isNavigationMode := true } =
        navigateToMessage n .down
          (navSteps n (List.replicate (n - 1) .up)
            { currentMessageIndex := some ((n : Int) - 1),
              isNavigationMode := true }) := by
      simp only [navSteps, List.foldl_append, List.foldl_cons, List.foldl_nil]
    rw [this, hups]
    unfold navigateToMessage
    rw [if_neg (by omega : ¬ n = 0)]
    simp only [NavState.mk.injEq, Option.some.injEq]
    omega

/-- Witness for C5 (amended) at N = 3: enter at cursor 2, two ups and a
down end at cursor 1. -/
theorem C5_navigation_cursor_witness :
    (navSteps 3 (List.replicate (3 - 1) .up ++ [.down])
      (navigateToMessage 3 .up initialNavState)).currentMessageIndex =
      some 1 :=
  (C5_navigation_cursor 3 (by decide)).2.2.2 (by decide)

/-- C6: the auto-scroll-to-newest effect (re-run whenever the message
list or the typing flag changes) emits a scroll to the bottom exactly in
Follow mode; in Navigate mode no render of `ChatWindow` ever requests a
scroll to the bottom. -/
theorem C6_autoscroll_only_in_follow (s : ChatState) :
    (s.nav.isNavigationMode = true →
      autoScrollEffect s = [] ∧ ScrollAction.toBottom ∉ chatEffects s) ∧
    (s.nav.isNavigationMode = false →
      autoScrollEffect s = [.toBottom] ∧
        ScrollAction.toBottom ∈ chatEffects s) := by
  constructor
  · intro h
    have ha : autoScrollEffect s = [] := by
      simp [autoScrollEffect, h]
    refine ⟨ha, ?_⟩
    simp only [chatEffects, ha, List.nil_append]
    unfold navScrollEffect
    cases hc : s.nav.currentMessageIndex with
    | none => simp [h, hc]
    | some i =>
      cases hg : s.messages[i.toNat]? with
      | none => simp [h, hc, List.get?_eq_getElem?, hg]
      | some m =>
        by_cases h0 : (0 : Int) ≤ i <;>
          simp [h, hc, List.get?_eq_getElem?, hg, h0]
  · intro h
    have ha : autoScrollEffect s = [.toBottom] := by
      simp [autoScrollEffect, h]
    exact ⟨ha, by simp [chatEffects, ha]⟩

/-- Witness for C6: a concrete state in Navigate mode emits no
scroll-to-bottom action. -/
theorem C6_autoscroll_only_in_follow_witness :
    ScrollAction.toBottom ∉ chatEffects
      { messages := [], isTyping := false,
        nav := { currentMessageIndex := some 0, isNavigationMode := true } } :=
  ((C6_autoscroll_only_in_follow
    { messages := [], isTyping := false,
      nav := { currentMessageIndex := some 0,
               isNavigationMode := true } }).1 rfl).2

/-- C7 counterexample: the formatter's preformatted block for the third
line keeps `"code"`, which is the line with its 3 leading backticks
stripped (`slice(3)`); stripping 4 leading characters as the claim
states would leave `"ode"`, so the claimed segment list is not what the
formatter produces. -/
theorem C7_counterexample_not_four_chars :
    formatMessageContent "**bold** line\n- item one\n```code" ≠
      [.para "<strong>bold</strong> line", .bullet "item one",
       .pre (jsSlice 4 "```code")] ∧
    jsSlice 4 "```code" = "ode" := by
  constructor
  · decide
  · decide

/-- C7 (amended): the formatter on the three-line input produces exactly
an emphasized-text paragraph, a bulleted item stripped to `"item one"`,
and a preformatted block containing `"code"`, obtained by stripping the
3 leading backtick characters from the third line. -/
theorem C7_formatter_three_segments :
    formatMessageContent "**bold** line\n- item one\n```code" =
      [.para "<strong>bold</strong> line", .bullet "item one",
       .pre "code"] ∧
    jsSlice 3 "```code" = "code" := by
  constructor
  · decide
  · decide

/-- C8: the submit action of the input bar — whether triggered by the
send button or by plain Enter in the textarea — is a no-op whenever the
draft trims to empty, a request is in flight, or voice capture is
listening; whenever it does emit, it emits the trimmed draft and clears
the draft, leaving the other flags untouched. -/
theorem C8_submit_guard (s : InputState) (key : String) (sh : Bool) :
    ((jsTrim s.message = "" ∨ s.isLoading = true ∨ s.isListening = true) →
      clickSend s = (s, none) ∧ pressKey key sh s = (s, none)) ∧
    (∀ s' t, clickSend s = (s', some t) →
      t = jsTrim s.message ∧ s'.message = "" ∧
        s'.isLoading = s.isLoading ∧ s'.isListening = s.isListening) ∧
    (∀ s' t, pressKey key sh s = (s', some t) →
      t = jsTrim s.message ∧ s'.message = "") := by
  refine ⟨?_, ?_, ?_⟩
  · intro h
    constructor
    · unfold clickSend sendButtonDisabled handleSubmit
      rcases h with h | h | h <;> split_ifs <;> simp_all
    · unfold pressKey textareaDisabled handleSubmit
      rcases h with h | h | h <;> split_ifs <;> simp_all
  · intro s' t h
    unfold clickSend sendButtonDisabled handleSubmit at h
    split_ifs at h <;> simp_all
    obtain ⟨hs', ht⟩ := h
    subst hs'
    simp_all
  · intro s' t h
    unfold pressKey textareaDisabled handleSubmit at h
    split_ifs at h <;> simp_all
    obtain ⟨hs', ht⟩ := h
    subst hs'
    simp_all

/-- Witness for C8: a whitespace-only draft makes Enter a no-op, and a
real draft submits trimmed and clears. -/
theorem C8_submit_guard_witness :
    pressKey "Enter" false
        { message := "   ", isLoading := false, isListening := false } =
      ({ message := "   ", isLoading := false, isListening := false },
        none) :=
  ((C8_submit_guard
    { message := "   ", isLoading := false, isListening := false }
    "Enter" false).1 (Or.inl (by decide))).2
